import Mathlib

/-!
Verification development for the file-based DOM state pipeline of
`playwright-mcp`: the in-page canonical serializer (`AIDomBuilderInjection`
in `domExtractor.ts`), the frame stitcher (`extractFullDom` in
`domState.ts`) and the session-state orchestrator (`DomState.update`).

The DOM data and every operation of those modules are embedded shallowly:
JS strings become `String`, DOM nodes become the inductive `DomNode`, and
each source function becomes an executable Lean definition carrying the
source's name.  JS string primitives (`replace`, `includes`, `split`,
`toLowerCase`, ...) are re-implemented structurally over `String.data` so
that concrete inputs evaluate inside the kernel.
-/

/-! ## JS string primitives -/

/-- Replace every occurrence of the single character `c` by `repl`.
Models one step of a chained JS `String.replace(/c/g, repl)`. -/
def replaceAllChar (c : Char) (repl : List Char) (s : List Char) : List Char :=
  s.foldr (fun x acc => if x = c then repl ++ acc else x :: acc) []

/-- Models JS `s.replace(pat, repl)` with a plain-string pattern: only the
first occurrence of `pat` is replaced (`$`-expansion in `repl` is not
modelled; no replacement text in this development contains `$`). -/
def jsReplaceFirst (s pat repl : String) : String := String.mk (go s.data)
where
  go : List Char → List Char
    | [] => []
    | c :: rest =>
      if pat.data.isPrefixOf (c :: rest) then repl.data ++ (c :: rest).drop pat.data.length
      else c :: go rest

/-- Models JS `s.includes(pat)`. -/
def jsIncludes (s pat : String) : Bool := go s.data
where
  go : List Char → Bool
    | [] => pat.data.isPrefixOf []
    | c :: rest => pat.data.isPrefixOf (c :: rest) || go rest

/-- Models JS `s.startsWith(pre)`. -/
def jsStartsWith (s pre : String) : Bool := pre.data.isPrefixOf s.data

/-- Models JS `String.prototype.toLowerCase` on ASCII tag names. -/
def strToLower (s : String) : String := String.mk (s.data.map Char.toLower)

/-- Models the JS test `text.trim() !== ''`: the string contains at least one
non-whitespace character. -/
def trimNonempty (s : String) : Bool := s.data.any (fun c => !c.isWhitespace)

/-- Models JS `classStr.split(/\s+/)` followed by the truthiness filter that
drops empty tokens: the whitespace-separated tokens of the string. -/
def wsTokens (s : String) : List String :=
  ((s.data.foldr
    (fun c acc =>
      if c.isWhitespace then [] :: acc
      else
        match acc with
        | [] => [[c]]
        | t :: ts => (c :: t) :: ts)
    []).filter (fun t => !t.isEmpty)).map String.mk

/-! ## DOM model

A `DomNode` is the fragment of the browser DOM that the serializer walks:
elements carry their `tagName` (upper-case, as `Element.tagName` reports for
HTML elements), their attributes in source order, the `_ariaRef` JS property
stamped by `captureSnapshot()` (if any), their light-DOM child nodes, and
their open shadow root (`el.shadowRoot`; `none` models both "no shadow root"
and a closed shadow root, which the browser reports as `null`). -/

inductive DomNode where
  | element (tag : String) (attrs : List (String × String)) (ariaRef : Option String)
      (children : List DomNode) (shadow : Option (List DomNode)) : DomNode
  | text (content : String) : DomNode
  | comment (content : String) : DomNode
deriving Repr

/-- Models DOM `el.getAttribute(name)`: value of the first attribute with the
given name, or `null`. -/
def getAttribute (attrs : List (String × String)) (name : String) : Option String :=
  (attrs.find? (fun a => a.1 == name)).map (fun a => a.2)

/-! ## Serializer constants (`domExtractor.ts`) -/

/-- Tags whose whole subtree is skipped (`SKIP_TAGS` in `domExtractor.ts`). -/
def SKIP_TAGS : List String := ["SCRIPT", "STYLE", "NOSCRIPT", "TEMPLATE"]

/-- Void element tags: no children, no closing tag (`VOID_TAGS`). -/
def VOID_TAGS : List String :=
  ["AREA", "BASE", "BR", "COL", "EMBED", "HR",
   "IMG", "INPUT", "LINK", "META", "SOURCE", "TRACK", "WBR"]

/-- Noisy SVG attributes replaced by a placeholder (`SVG_NOISE_ATTRS`). -/
def SVG_NOISE_ATTRS : List String := ["d", "points"]

/-- The canonical attribute-order table `ATTR_ORDER` of `domExtractor.ts`;
`none` models absence of the key from the record. -/
def ATTR_ORDER (name : String) : Option Nat :=
  match name with
  | "id" => some 0
  | "type" => some 1
  | "name" => some 2
  | "role" => some 3
  | "href" => some 10
  | "src" => some 11
  | "action" => some 12
  | "method" => some 13
  | "for" => some 14
  | "value" => some 20
  | "placeholder" => some 21
  | "required" => some 22
  | "disabled" => some 23
  | "checked" => some 24
  | "selected" => some 25
  | "multiple" => some 26
  | "readonly" => some 27
  | "class" => some 40
  | "alt" => some 41
  | "title" => some 42
  | "target" => some 43
  | "rel" => some 44
  | _ => none

/-- Regex `^(css|sc|emotion|styled|jsx)-` (anchored at the start) of
`GENERATED_CLASS_PATTERNS`. -/
def cssInJsFrameworkPrefixed (cls : String) : Bool :=
  jsStartsWith cls "css-" || jsStartsWith cls "sc-" || jsStartsWith cls "emotion-" ||
  jsStartsWith cls "styled-" || jsStartsWith cls "jsx-"

/-- Regex `^_[a-zA-Z0-9]{5,}$` of `GENERATED_CLASS_PATTERNS`
(CSS-module hashes such as `_3fkL2xB`). -/
def cssModuleHash (cls : String) : Bool :=
  match cls.data with
  | '_' :: rest => decide (5 ≤ rest.length) && rest.all (fun c => c.isAlphanum)
  | _ => false

/-- A hexadecimal digit as matched case-insensitively by `[a-f0-9]`. -/
def isHexDigitChar (c : Char) : Bool :=
  ('a' ≤ c && c ≤ 'f') || ('A' ≤ c && c ≤ 'F') || c.isDigit

/-- Regex `[a-f0-9]{8,}` (case-insensitive, unanchored) of
`GENERATED_CLASS_PATTERNS`: the string contains a run of at least 8 hex
digits. -/
def containsLongHexRun (cls : String) : Bool := go cls.data 0
where
  go : List Char → Nat → Bool
    | [], run => decide (8 ≤ run)
    | c :: rest, run =>
      if 8 ≤ run then true
      else if isHexDigitChar c then go rest (run + 1)
      else go rest 0

/-- Models `GENERATED_CLASS_PATTERNS.some(p => p.test(cls))`. -/
def generatedClassTest (cls : String) : Bool :=
  cssInJsFrameworkPrefixed cls || cssModuleHash cls || containsLongHexRun cls

/-! ## Serializer helpers (`domExtractor.ts`) -/

/-- Source `shouldSkipAttribute`: event handlers, inline styles, `data-*`. -/
def shouldSkipAttribute (name : String) : Bool :=
  jsStartsWith name "on" || name == "style" || jsStartsWith name "data-"

/-- Source `attrOrder`: table lookup, then `aria-*` at 5, everything else 30. -/
def attrOrder (name : String) : Nat :=
  match ATTR_ORDER name with
  | some n => n
  | none => if jsStartsWith name "aria-" then 5 else 30

/-- Source `filterClasses`: split on whitespace, drop generated-looking
tokens, re-join with single spaces. -/
def filterClasses (classStr : String) : String :=
  String.intercalate " " ((wsTokens classStr).filter (fun cls => !generatedClassTest cls))

/-- Source `escapeHtml`: `&` then `<` then `>`, applied in that order. -/
def escapeHtml (text : String) : String :=
  String.mk (replaceAllChar '>' "&gt;".data
    (replaceAllChar '<' "&lt;".data
      (replaceAllChar '&' "&amp;".data text.data)))

/-- Source `escapeAttr`: `&`, `"`, `<`, `>`, applied in that order. -/
def escapeAttr (value : String) : String :=
  String.mk (replaceAllChar '>' "&gt;".data
    (replaceAllChar '<' "&lt;".data
      (replaceAllChar '"' "&quot;".data
        (replaceAllChar '&' "&amp;".data value.data))))

/-! ## The builder (`class AIDomBuilder`) -/

/-- Mutable fields of an `AIDomBuilder` instance: the `_html` string buffer
and the `_iframeRefs` accumulator. -/
structure BuilderState where
  _html : List String
  _iframeRefs : List String
deriving Repr

/-- Models `this._html.push(s)`. -/
def pushHtml (st : BuilderState) (s : String) : BuilderState :=
  { st with _html := st._html ++ [s] }

/-- Source `AIDomBuilder._shouldSkipElement`: `SKIP_TAGS` members and
stylesheet `<link>`s; hidden elements are deliberately kept. -/
def _shouldSkipElement (tag : String) (attrs : List (String × String)) : Bool :=
  SKIP_TAGS.contains tag || (tag == "LINK" && getAttribute attrs "rel" == some "stylesheet")

/-- Source `AIDomBuilder._isSvgNoise`. -/
def _isSvgNoise (tag attrName : String) : Bool :=
  SVG_NOISE_ATTRS.contains attrName && (tag == "PATH" || tag == "POLYGON")

/-- One iteration of the attribute-collection loop of
`AIDomBuilder._serializeAttributes`: `none` when the attribute is dropped,
otherwise the (name, value) pair that is pushed onto `attrs`. -/
def processAttr (tag : String) (a : String × String) : Option (String × String) :=
  if shouldSkipAttribute a.1 then none
  else if a.1 == "ref" then none
  else if _isSvgNoise tag a.1 then some (a.1, "...")
  else if a.1 == "class" then
    let filtered := filterClasses a.2
    if filtered ≠ "" then some ("class", filtered) else none
  else some a

/-- Stable insertion used to model `attrs.sort((a, b) => attrOrder(a[0]) -
attrOrder(b[0]))`; JS `Array.prototype.sort` is stable, and a stable sort by
this comparator is exactly insertion before the first entry of
greater-or-equal rank. -/
def insertAttr (x : String × String) : List (String × String) → List (String × String)
  | [] => [x]
  | y :: ys => if attrOrder x.1 ≤ attrOrder y.1 then x :: y :: ys else y :: insertAttr x ys

/-- The stable sort of the collected attributes by canonical rank. -/
def sortAttrs (l : List (String × String)) : List (String × String) :=
  l.foldr insertAttr []

/-- The exact text pushed for one serialized attribute. -/
def attrText (a : String × String) : String :=
  " " ++ a.1 ++ "=\"" ++ escapeAttr a.2 ++ "\""

/-- Source `AIDomBuilder._serializeAttributes`: filter, canonically sort,
push ` name="value"` per survivor. -/
def _serializeAttributes (st : BuilderState) (tag : String)
    (attrs : List (String × String)) : BuilderState :=
  let processed := sortAttrs (attrs.filterMap (processAttr tag))
  processed.foldl (fun s a => pushHtml s (attrText a)) st

/-- Source `AIDomBuilder._serializeRef`: stamp the element's `_ariaRef.ref`
(if present) as a final `ref` attribute, unescaped. -/
def _serializeRef (st : BuilderState) (ariaRef : Option String) : BuilderState :=
  match ariaRef with
  | some ref => pushHtml st (" ref=\"" ++ ref ++ "\"")
  | none => st

mutual

/-- Source `AIDomBuilder._serializeElement`: open tag, attributes, ref,
children, shadow content between comment markers, close tag.  Non-element
nodes are never passed to it by the walk and leave the state unchanged. -/
def _serializeElement (st : BuilderState) (n : DomNode) : BuilderState :=
  match n with
  | .text _ => st
  | .comment _ => st
  | .element tag attrs ariaRef children shadow =>
    if _shouldSkipElement tag attrs then st
    else
      let tagLower := strToLower tag
      let st1 :=
        if tag == "IFRAME" then
          match ariaRef with
          | some ref => { st with _iframeRefs := st._iframeRefs ++ [ref] }
          | none => st
        else st
      let st2 := pushHtml st1 ("<" ++ tagLower)
      let st3 := _serializeAttributes st2 tag attrs
      let st4 := _serializeRef st3 ariaRef
      let st5 := pushHtml st4 ">"
      if VOID_TAGS.contains tag then st5
      else
        let st6 := _serializeChildren st5 children
        let st7 :=
          match shadow with
          | some shadowChildren =>
            pushHtml (_serializeChildren (pushHtml st6 "<!-- shadow-root -->") shadowChildren)
              "<!-- /shadow-root -->"
          | none => st6
        pushHtml st7 ("</" ++ tagLower ++ ">")

/-- Source `AIDomBuilder._serializeChildren`: iterate the child nodes,
emitting escaped non-blank text nodes and recursing into element nodes;
every other node kind (comments in particular) is passed over. -/
def _serializeChildren (st : BuilderState) (ns : List DomNode) : BuilderState :=
  match ns with
  | [] => st
  | child :: rest =>
    let st1 :=
      match child with
      | .text content => if trimNonempty content then pushHtml st (escapeHtml content) else st
      | .element tag attrs ariaRef children shadow =>
        _serializeElement st (.element tag attrs ariaRef children shadow)
      | .comment _ => st
    _serializeChildren st1 rest

end

/-- Result record of one builder run (`{ html, iframeRefs }`). -/
structure ExtractionResult where
  html : String
  iframeRefs : List String
deriving Repr, DecidableEq

/-- Source `AIDomBuilder.build`: reset `_html` and `_iframeRefs`, walk the
root, join the buffer.  Returns the result together with the instance state
left behind by the run. -/
def AIDomBuilder_build (b : BuilderState) (root : DomNode) :
    ExtractionResult × BuilderState :=
  let b1 : BuilderState := { b with _html := [], _iframeRefs := [] }
  let b2 := _serializeElement b1 root
  ({ html := String.join b2._html, iframeRefs := b2._iframeRefs }, b2)

/-- Source `AIDomBuilderInjection` evaluated in a rendering context whose
`document.body` is `body`: `new AIDomBuilder().build(document.body)`. -/
def AIDomBuilderInjection (body : DomNode) : ExtractionResult :=
  (AIDomBuilder_build { _html := [], _iframeRefs := [] } body).1

/-! ## Frame stitcher (`extractFullDom` in `domState.ts`)

Frame resolution (`page.locator("aria-ref=" + ref).contentFrame()` followed
by `frame.evaluate(AIDomBuilderInjection)`) is modelled by a function
`resolve : String → Option DomNode` giving the `document.body` of the frame
addressed by a ref; `none` models every failure mode (navigated away,
detached, cross-origin), which in the source surfaces as an exception caught
by the `try`/`catch` around the whole per-ref loop body. -/

/-- The literal string the stitcher searches for: the frame element exactly
as the root walk emits it when the element has no surviving attributes. -/
def emptyIframeText (ref : String) : String :=
  "<iframe ref=\"" ++ ref ++ "\"></iframe>"

/-- The replacement: frame element with the child's serialized text inlined
between `BEGIN`/`END` comment markers keyed by the ref. -/
def stitchedIframeText (ref childHtml : String) : String :=
  "<iframe ref=\"" ++ ref ++ "\">\n<!-- BEGIN IFRAME " ++ ref ++ " -->\n" ++
    childHtml ++ "\n<!-- END IFRAME " ++ ref ++ " -->\n</iframe>"

/-- The inner `for (const childRef of child.iframeRefs)` loop.  A resolution
failure throws, so it aborts the remaining nested refs of this child; the
`html` accumulated so far (the outer variable was already reassigned) is
kept. -/
def stitchNested (resolve : String → Option DomNode) : String → List String → String
  | html, [] => html
  | html, childRef :: rest =>
    match resolve childRef with
    | none => html
    | some nestedBody =>
      let nested := AIDomBuilderInjection nestedBody
      stitchNested resolve
        (jsReplaceFirst html (emptyIframeText childRef)
          (stitchedIframeText childRef nested.html)) rest

/-- The outer `for (const ref of main.iframeRefs)` loop of `extractFullDom`:
each iteration is wrapped in `try`/`catch`, so a failure anywhere inside it
leaves that iteration's remaining work undone and moves to the next ref. -/
def stitchAll (resolve : String → Option DomNode) : String → List String → String
  | html, [] => html
  | html, ref :: rest =>
    let html1 :=
      match resolve ref with
      | none => html
      | some childBody =>
        let child := AIDomBuilderInjection childBody
        stitchNested resolve
          (jsReplaceFirst html (emptyIframeText ref) (stitchedIframeText ref child.html))
          child.iframeRefs
    stitchAll resolve html1 rest

/-- Source `extractFullDom`: run the builder in the main frame, then stitch
the discovered frames. -/
def extractFullDom (resolve : String → Option DomNode) (mainBody : DomNode) : String :=
  let main := AIDomBuilderInjection mainBody
  stitchAll resolve main.html main.iframeRefs

/-! ## Session state orchestrator (`class DomState` in `domState.ts`) -/

/-- The per-session mutable fields of a `DomState` instance. -/
structure DomState where
  _previousDom : Option String
  _diffCounter : Nat
  _stateDir : Option String
deriving Repr, DecidableEq

/-- A fresh `DomState` (`new DomState()`). -/
def DomState.init : DomState := { _previousDom := none, _diffCounter := 0, _stateDir := none }

/-- Workspace-addressing inputs of `_ensureStateDir`: the two env vars read
from `process.env` (a JS string or `undefined`) and the MCP-roots view of the
`Context` collaborator. -/
structure WorkspaceEnv where
  instanceId : Option String
  muxWorkspace : Option String
  hasExplicitRoots : Bool
  firstRootPath : String
deriving Repr

/-- JS truthiness of an `env` value: present and non-empty. -/
def truthy : Option String → Bool
  | some s => s ≠ ""
  | none => false

/-- Models Node's `path.join` for the simple relative segments used here. -/
def pathJoin (a b : String) : String := a ++ "/" ++ b

/-- Source `DomState._ensureStateDir`: cached dir, else multiplexer env
vars, else explicit MCP roots, else disabled.  Returns the updated state
(the resolved dir is cached) and the directory, `none` meaning disabled. -/
def DomState._ensureStateDir (st : DomState) (env : WorkspaceEnv) :
    DomState × Option String :=
  match st._stateDir with
  | some d => (st, some d)
  | none =>
    if truthy env.instanceId && truthy env.muxWorkspace then
      let d := pathJoin (pathJoin (pathJoin (env.muxWorkspace.getD "") ".playwright-mcp")
        "browser-state") (env.instanceId.getD "")
      ({ st with _stateDir := some d }, some d)
    else if env.hasExplicitRoots then
      let d := pathJoin (pathJoin env.firstRootPath ".playwright-mcp") "browser-state"
      ({ st with _stateDir := some d }, some d)
    else
      (st, none)

/-- Modelled from the spec: `diff.createPatch` comes from playwright-core's
bundled diff library, which is outside this repository's sources.  Per the
spec, the patch always starts with a file header and contains `@@` hunk
markers exactly when the two texts differ; the orchestrator only ever tests
the patch for the substring `@@`, so the hunk body is abbreviated here. -/
def createPatch (fileName oldText newText : String) : String :=
  let header := "Index: " ++ fileName ++ "\n===\n--- " ++ fileName ++ "\n+++ " ++
    fileName ++ "\n"
  if oldText = newText then header else header ++ "@@ -1 +1 @@\n"

/-- The two tool arguments `formatDiffName` reads from `toolArgs`:
`toolArgs.ref` (`none` models absence) and `toolArgs.value` (`none` models
absence or a non-string value). -/
structure ToolArgs where
  ref : Option String
  value : Option String
deriving Repr

/-- Models JS `String(n).padStart(3, '0')`. -/
def padStart3 (s : String) : String :=
  if 3 ≤ s.data.length then s else String.mk (List.replicate (3 - s.data.length) '0') ++ s

/-- Models the chained regex replace `[^a-zA-Z0-9-]` to `-`:
every character outside the allowed set becomes a dash. -/
def dashSanitize (s : String) : String :=
  String.mk (s.data.map (fun c => if c.isAlphanum || c = '-' then c else '-'))

/-- Models the regex replace collapsing every `-` run to a single dash. -/
def collapseDashes (s : String) : String := String.mk (go s.data)
where
  go : List Char → List Char
    | [] => []
    | '-' :: rest =>
      match go rest with
      | '-' :: tail => '-' :: tail
      | tail => '-' :: tail
    | c :: rest => c :: go rest

/-- Source `formatDiffName`: zero-padded counter, tool name with its
`browser_` namespace removed, then a sanitized `ref`/`value` suffix. -/
def formatDiffName (counter : Nat) (toolName : String) (toolArgs : ToolArgs) : String :=
  let num := padStart3 (toString counter)
  let action := jsReplaceFirst toolName "browser_" ""
  let ref := toolArgs.ref.getD ""
  let value := match toolArgs.value with
    | some v => String.mk (v.data.take 20)
    | none => ""
  let suffix := collapseDashes (dashSanitize
    (String.intercalate "-" ([ref, value].filter (fun s => s ≠ ""))))
  num ++ "-" ++ action ++ (if suffix ≠ "" then "-" ++ suffix else "") ++ ".diff"

/-- Return record of a successful `DomState.update`. -/
structure DomStateResult where
  domPath : String
  ariaPath : String
  diffPath : Option String
  diff : Option String
deriving Repr

/-- Source `DomState.update`.  The extraction step (`extractFullDom` run
against the live page) is passed in as `extraction`: `some rawHtml` when it
returned, `none` when it threw (page navigated or closed).  The
pretty-printer (`prettyPrintHtml`, a thin wrapper over the external
js-beautify package) is passed in as the function `pretty`.  File-system
writes are not modelled; the paths and contents the source would write are
exactly the fields of the returned `DomStateResult`. -/
def DomState.update (pretty : String → String) (st : DomState) (env : WorkspaceEnv)
    (extraction : Option String) (toolName : String) (toolArgs : ToolArgs) :
    DomState × Option DomStateResult :=
  match DomState._ensureStateDir st env with
  | (st1, none) => (st1, none)
  | (st1, some stateDir) =>
    match extraction with
    | none => (st1, none)
    | some rawHtml =>
      let dom := pretty rawHtml
      let diffStr : Option String :=
        match st1._previousDom with
        | none => none
        | some prev =>
          let patch := createPatch "dom.html" prev dom
          if jsIncludes patch "@@" then some patch else none
      let domPath := pathJoin stateDir "dom.html"
      let ariaPath := pathJoin stateDir "accessibility-tree.yaml"
      match diffStr with
      | some d =>
        let counter1 := st1._diffCounter + 1
        let diffName := formatDiffName counter1 toolName toolArgs
        let diffPath := pathJoin (pathJoin stateDir "diffs") diffName
        ({ st1 with _previousDom := some dom, _diffCounter := counter1 },
          some { domPath := domPath, ariaPath := ariaPath,
                 diffPath := some diffPath, diff := some d })
      | none =>
        ({ st1 with _previousDom := some dom },
          some { domPath := domPath, ariaPath := ariaPath,
                 diffPath := none, diff := none })

/-! ## Derived definitions used by the statements below -/

mutual

/-- The same DOM tree with every comment node deleted (at every depth,
including shadow trees).  Used to state that comment nodes never influence
the serializer's output. -/
def stripComments : DomNode → DomNode
  | .element tag attrs ariaRef children shadow =>
    .element tag attrs ariaRef (stripCommentsList children)
      (match shadow with
       | some shadowChildren => some (stripCommentsList shadowChildren)
       | none => none)
  | .text s => .text s
  | .comment s => .comment s

/-- Comment removal on a child list. -/
def stripCommentsList : List DomNode → List DomNode
  | [] => []
  | .comment _ :: rest => stripCommentsList rest
  | n :: rest => stripComments n :: stripCommentsList rest

end

/-- The attribute pairs that survive filtering, in the order the serializer
emits them (projection of the `_serializeAttributes` pipeline). -/
def emittedAttrs (tag : String) (attrs : List (String × String)) :
    List (String × String) :=
  sortAttrs (attrs.filterMap (processAttr tag))

/-- The names of the attributes the serializer emits, in emission order. -/
def emittedAttrNames (tag : String) (attrs : List (String × String)) : List String :=
  (emittedAttrs tag attrs).map (fun a => a.1)

/-- The buffer entries pushed by `_serializeRef`. -/
def refPiece (ariaRef : Option String) : List String :=
  match ariaRef with
  | some ref => [" ref=\"" ++ ref ++ "\""]
  | none => []

/-- The attribute rank exactly as the specification's claim states it:
identity-ish, then `aria-*`, then reference/linking, then value-ish, then
`class`, then everything else (`ref` is claimed last and handled apart).
This follows the spec's words, for comparison with the source's
`attrOrder`. -/
def specClaimedAttrRank (name : String) : Nat :=
  if name ∈ ["id", "type", "name", "role"] then 0
  else if jsStartsWith name "aria-" then 1
  else if name ∈ ["href", "src", "action", "method", "for"] then 2
  else if name ∈ ["value", "placeholder", "required", "disabled", "checked", "selected"] then 3
  else if name = "class" then 4
  else 5

/-- Workspace addressing is available: env-var pair or explicit roots. -/
def envAvailable (env : WorkspaceEnv) : Bool :=
  (truthy env.instanceId && truthy env.muxWorkspace) || env.hasExplicitRoots

/-- One tool call's inputs to `DomState.update` as seen by the model:
the extraction outcome and the diff-naming inputs. -/
structure UpdateInput where
  extraction : Option String
  toolName : String
  toolArgs : ToolArgs

/-- One step of a session: state before, the call's inputs, state after,
and the returned result. -/
structure TraceEntry where
  before : DomState
  input : UpdateInput
  after : DomState
  output : Option DomStateResult

/-- The trace of successive `update` calls on one session. -/
def updateTrace (pretty : String → String) (env : WorkspaceEnv) :
    DomState → List UpdateInput → List TraceEntry
  | _, [] => []
  | st, i :: is =>
    let r := DomState.update pretty st env i.extraction i.toolName i.toolArgs
    { before := st, input := i, after := r.1, output := r.2 } ::
      updateTrace pretty env r.1 is

/-- Did this step of the trace write a diff artifact? -/
def wroteDiff (e : TraceEntry) : Bool :=
  match e.output with
  | some r => r.diffPath.isSome
  | none => false

/-- The diff-artifact discipline of one session, stated over a trace of
updates: every update succeeds; a diff file is written exactly when the new
formatted text differs from the previous text; each written diff bumps the
counter by exactly one and is named with the bumped counter; a suppressed
diff leaves the counter untouched; the first capture writes no diff; and the
final counter equals the number of written diffs (so, starting from a fresh
session, the written sequence numbers are exactly 1, 2, ..., k with no
gaps). -/
def DiffSequencingSpec (pretty : String → String) (env : WorkspaceEnv)
    (ins : List UpdateInput) : Prop :=
  (∀ e ∈ updateTrace pretty env DomState.init ins,
    ∃ r, e.output = some r ∧
      (r.diffPath.isSome ↔ ∃ prev raw, e.before._previousDom = some prev ∧
        e.input.extraction = some raw ∧ pretty raw ≠ prev) ∧
      (∀ p, r.diffPath = some p →
        e.after._diffCounter = e.before._diffCounter + 1 ∧
        ∃ d, e.after._stateDir = some d ∧
          p = pathJoin (pathJoin d "diffs")
            (formatDiffName e.after._diffCounter e.input.toolName e.input.toolArgs)) ∧
      (r.diffPath = none → e.after._diffCounter = e.before._diffCounter)) ∧
  (∀ e, (updateTrace pretty env DomState.init ins).head? = some e →
    ∃ r, e.output = some r ∧ r.diffPath = none) ∧
  ((updateTrace pretty env DomState.init ins).getLast?).elim 0
      (fun e => e.after._diffCounter) =
    ((updateTrace pretty env DomState.init ins).filter wroteDiff).length

/-- Main-frame body of the frame-stitching scenario: the page's only iframe
carries a `src` attribute (as the design document's own Stripe example
does). -/
def c4Main : DomNode :=
  .element "BODY" [] none
    [.element "IFRAME" [("src", "https://pay.example/v3")] (some "f1") [] none] none

/-- The same page with an attribute-free iframe. -/
def c4BareMain : DomNode :=
  .element "BODY" [] none [.element "IFRAME" [] (some "f1") [] none] none

/-- The child frame's body: a button labelled Submit. -/
def c4Child : DomNode :=
  .element "BODY" [] none
    [.element "BUTTON" [] (some "f1e2") [.text "Submit"] none] none

/-- Frame resolution for the stitching scenario: `f1` resolves. -/
def c4Resolve : String → Option DomNode :=
  fun r => if r = "f1" then some c4Child else none

/-- Child frame body holding two nested iframes `fB` and `fC`. -/
def c7ChildA : DomNode :=
  .element "BODY" [] none
    [.element "IFRAME" [] (some "fB") [] none,
     .element "IFRAME" [] (some "fC") [] none] none

/-- Body of the nested frame `fC`. -/
def c7ChildC : DomNode :=
  .element "BODY" [] none [.text "CeeContent"] none

/-- Main-frame body of the failure-tolerance scenario: one iframe `fA`. -/
def c7Main : DomNode :=
  .element "BODY" [] none [.element "IFRAME" [] (some "fA") [] none] none

/-- Frame resolution for the failure-tolerance scenario: `fA` and `fC`
resolve, `fB` does not. -/
def c7Resolve : String → Option DomNode :=
  fun r => if r = "fA" then some c7ChildA else if r = "fC" then some c7ChildC else none

/-- The iframe refs recorded by the ref-collection step at one element. -/
def iframeDelta (tag : String) (ariaRef : Option String) : List String :=
  if tag == "IFRAME" then
    match ariaRef with
    | some ref => [ref]
    | none => []
  else []

/-! ## Theorems -/

/-- C1: Serializer determinism — for every DOM tree, running the builder's
`build` twice on the same unchanged tree yields byte-identical canonical
text; the output is a function of the tree alone, independent of any builder
state left behind by earlier runs (the method resets `_html` and
`_iframeRefs` before walking). -/
theorem serializer_determinism (root : DomNode) (b b1 b2 : BuilderState) :
    (AIDomBuilder_build b root).1 =
      (AIDomBuilder_build (AIDomBuilder_build b root).2 root).1 ∧
    (AIDomBuilder_build b1 root).1 = (AIDomBuilder_build b2 root).1 :=
  ⟨rfl, rfl⟩

/-- C4 (evaluation at the failing input): a page whose only iframe carries a
`src` attribute and whose frame resolves successfully is nevertheless not
stitched: the serialized element reads `<iframe src=... ref="f1"></iframe>`,
the stitcher's search string `<iframe ref="f1"></iframe>` does not occur, so
`extractFullDom` returns the main walk's text unchanged — no `BEGIN`/`END`
markers, no inlined `Submit` — although the design document's own example
shows exactly such a `src`-carrying iframe being inlined.  The same page
with an attribute-free iframe is stitched as the claim describes. -/
theorem frame_stitching_src_attr_bug :
    (c4Resolve "f1").isSome = true ∧
    (AIDomBuilderInjection c4Main).iframeRefs = ["f1"] ∧
    extractFullDom c4Resolve c4Main = (AIDomBuilderInjection c4Main).html ∧
    jsIncludes (extractFullDom c4Resolve c4Main) "BEGIN IFRAME f1" = false ∧
    jsIncludes (extractFullDom c4Resolve c4Main) "Submit" = false ∧
    jsIncludes (extractFullDom c4Resolve c4BareMain) "BEGIN IFRAME f1" = true ∧
    jsIncludes (extractFullDom c4Resolve c4BareMain) "Submit" = true := by
  decide

/-- C7 (counterexample): the claim "continues with the remaining refs" fails
for nested refs.  Frame `fA` resolves and contains nested frames `fB` and
`fC`; `fB` fails to resolve, and because the `try`/`catch` wraps the whole
per-top-level-ref body, the resolvable sibling `fC` is never attempted: the
output carries `fA`'s markers but no `fC` markers and no `fC` content. -/
theorem frame_failure_sibling_cex :
    (c7Resolve "fC").isSome = true ∧
    jsIncludes (extractFullDom c7Resolve c7Main) "BEGIN IFRAME fA" = true ∧
    jsIncludes (extractFullDom c7Resolve c7Main) "BEGIN IFRAME fC" = false ∧
    jsIncludes (extractFullDom c7Resolve c7Main) "CeeContent" = false := by
  decide

/-- C7 (amended): a top-level frame ref whose resolution fails is left
exactly as the root walk emitted it and stitching continues with the
remaining top-level refs; a nested ref whose resolution fails ends the
stitching of that child's remaining nested refs, leaving the text
accumulated so far.  In both cases no error reaches the caller (the model
functions are total). -/
theorem frame_failure_tolerance (resolve : String → Option DomNode)
    (html ref : String) (rest : List String) (h : resolve ref = none) :
    stitchAll resolve html (ref :: rest) = stitchAll resolve html rest ∧
    stitchNested resolve html (ref :: rest) = html := by
  constructor
  · simp [stitchAll, h]
  · simp [stitchNested, h]

/-- Witness for `frame_failure_tolerance` at a concrete failing resolver. -/
theorem frame_failure_tolerance_witness :
    (fun (_ : String) => (none : Option DomNode)) "f1" = none ∧
    (stitchAll (fun _ => none) "<body></body>" ["f1", "f2"] =
        stitchAll (fun _ => none) "<body></body>" ["f2"] ∧
      stitchNested (fun _ => none) "<body></body>" ["f1", "f2"] = "<body></body>") :=
  ⟨rfl, frame_failure_tolerance (fun _ => none) "<body></body>" "f1" ["f2"] rfl⟩

/-- Resolving the state directory never touches `_previousDom` or
`_diffCounter`. -/
lemma ensureStateDir_preserves (st : DomState) (env : WorkspaceEnv) :
    (DomState._ensureStateDir st env).1._previousDom = st._previousDom ∧
    (DomState._ensureStateDir st env).1._diffCounter = st._diffCounter := by
  unfold DomState._ensureStateDir
  cases h : st._stateDir <;> simp [h]
  split
  · simp
  · split <;> simp

/-- C6: Extraction-failure atomicity — when the serializer/stitcher step of
`update()` fails (modelled by `extraction = none`), `update()` returns
`none` and the session's `_previousDom` and `_diffCounter` hold exactly the
values they had before the call. -/
theorem extraction_failure_atomicity (pretty : String → String) (st : DomState)
    (env : WorkspaceEnv) (toolName : String) (toolArgs : ToolArgs) :
    (DomState.update pretty st env none toolName toolArgs).2 = none ∧
    (DomState.update pretty st env none toolName toolArgs).1._previousDom
      = st._previousDom ∧
    (DomState.update pretty st env none toolName toolArgs).1._diffCounter
      = st._diffCounter := by
  have hp := ensureStateDir_preserves st env
  unfold DomState.update
  rcases hE : DomState._ensureStateDir st env with ⟨st1, dOpt⟩
  rw [hE] at hp
  cases dOpt <;> simp_all

/-- C8: No-workspace short-circuit — with no cached directory, falsy env-var
pair and no explicit roots, `update()` returns `none` with the state
untouched, for every possible extraction outcome (the result does not depend
on the extraction input at all, which is the observable content of "the
serializer is never invoked"). -/
theorem no_workspace_short_circuit (pretty : String → String) (st : DomState)
    (env : WorkspaceEnv)
    (hcached : st._stateDir = none)
    (hmux : (truthy env.instanceId && truthy env.muxWorkspace) = false)
    (hroots : env.hasExplicitRoots = false) :
    ∀ (extraction : Option String) (toolName : String) (toolArgs : ToolArgs),
      DomState.update pretty st env extraction toolName toolArgs = (st, none) := by
  intro extraction toolName toolArgs
  unfold DomState.update DomState._ensureStateDir
  simp [hcached, hmux, hroots]

/-- Witness for `no_workspace_short_circuit` on a fresh session with empty
environment. -/
theorem no_workspace_short_circuit_witness :
    (DomState.init._stateDir = none ∧
      (truthy none && truthy none) = false) ∧
    DomState.update id DomState.init
        { instanceId := none, muxWorkspace := none,
          hasExplicitRoots := false, firstRootPath := "/w" }
        (some "<body></body>") "browser_click" { ref := none, value := none } =
      (DomState.init, none) :=
  ⟨⟨rfl, rfl⟩,
    no_workspace_short_circuit id DomState.init
      { instanceId := none, muxWorkspace := none,
        hasExplicitRoots := false, firstRootPath := "/w" }
      rfl rfl rfl (some "<body></body>") "browser_click" { ref := none, value := none }⟩

mutual

/-- Deleting comment nodes anywhere in a tree leaves `_serializeElement`'s
result unchanged. -/
theorem _serializeElement_stripComments (n : DomNode) :
    ∀ st, _serializeElement st (stripComments n) = _serializeElement st n := by
  cases n with
  | text s => intro st; rfl
  | comment s => intro st; rfl
  | element tag attrs ariaRef children shadow =>
    intro st
    have hch := _serializeChildren_stripComments children
    cases shadow with
    | none =>
      simp only [stripComments, _serializeElement, hch]
    | some shadowChildren =>
      have hsh := _serializeChildren_stripComments shadowChildren
      simp only [stripComments, _serializeElement, hch, hsh]

/-- Deleting comment nodes leaves `_serializeChildren`'s result unchanged. -/
theorem _serializeChildren_stripComments (ns : List DomNode) :
    ∀ st, _serializeChildren st (stripCommentsList ns) = _serializeChildren st ns := by
  cases ns with
  | nil => intro st; rfl
  | cons child rest =>
    intro st
    have hrest := _serializeChildren_stripComments rest
    cases child with
    | text s => exact hrest _
    | comment s => exact hrest st
    | element tag attrs ariaRef children shadow =>
      have hel := _serializeElement_stripComments (.element tag attrs ariaRef children shadow)
      calc _serializeChildren st (stripCommentsList (.element tag attrs ariaRef children shadow :: rest))
          = _serializeChildren
              (_serializeElement st (stripComments (.element tag attrs ariaRef children shadow)))
              (stripCommentsList rest) := rfl
        _ = _serializeChildren
              (_serializeElement st (.element tag attrs ariaRef children shadow))
              (stripCommentsList rest) := by rw [hel st]
        _ = _serializeChildren
              (_serializeElement st (.element tag attrs ariaRef children shadow)) rest := hrest _

end

/-- C10: comment nodes are never emitted — the serializer's child walk
dispatches only text and element nodes, so one step over a comment child
leaves the builder state untouched, and deleting every comment node from a
document leaves the canonical output (text and frame refs) byte-identical. -/
theorem comments_never_emitted (body : DomNode) (st : BuilderState)
    (s : String) (ns : List DomNode) :
    AIDomBuilderInjection (stripComments body) = AIDomBuilderInjection body ∧
    _serializeChildren st (.comment s :: ns) = _serializeChildren st ns := by
  constructor
  · simp only [AIDomBuilderInjection, AIDomBuilder_build,
      _serializeElement_stripComments body]
  · rfl

/-- C9: Class filtering — for an element whose `class` attribute is `v`, the
serializer emits `class` with exactly the whitespace-split survivors of the
generated-identifier filter (re-joined by single spaces, attribute-escaped),
and omits the attribute entirely when no token survives; in particular
`class="css-1a2b3c help-text sc-dkPtRN"` yields `class="help-text"` and
`class="css-1a2b3c sc-dkPtRN"` yields no class attribute at all. -/
theorem class_filtering :
    (∀ v : String,
      (AIDomBuilderInjection (.element "DIV" [("class", v)] none [] none)).html =
        if filterClasses v = "" then "<div></div>"
        else "<div class=\"" ++ escapeAttr (filterClasses v) ++ "\"></div>") ∧
    filterClasses "css-1a2b3c help-text sc-dkPtRN" = "help-text" ∧
    (AIDomBuilderInjection (.element "DIV"
        [("class", "css-1a2b3c help-text sc-dkPtRN")] none [] none)).html
      = "<div class=\"help-text\"></div>" ∧
    (AIDomBuilderInjection (.element "DIV"
        [("class", "css-1a2b3c sc-dkPtRN")] none [] none)).html = "<div></div>" := by
  refine ⟨?_, by decide, by decide, by decide⟩
  intro v
  have hskip : _shouldSkipElement "DIV" [("class", v)] = false := rfl
  have hifr : (("DIV" : String) == "IFRAME") = false := rfl
  have hvoid : VOID_TAGS.contains "DIV" = false := rfl
  have hlow : strToLower "DIV" = "div" := rfl
  have hpa : processAttr "DIV" ("class", v) =
      if filterClasses v ≠ "" then some ("class", filterClasses v) else none := rfl
  by_cases hv : filterClasses v = ""
  · simp only [AIDomBuilderInjection, AIDomBuilder_build, _serializeElement,
      _serializeAttributes, _serializeRef, _serializeChildren,
      hskip, hifr, hvoid, hlow, hpa, hv,
      List.filterMap, pushHtml, sortAttrs, List.foldr, List.foldl,
      Bool.false_eq_true, if_false, ne_eq, not_true_eq_false, ite_false, if_neg]
    simp [hv, String.join]
  · simp only [AIDomBuilderInjection, AIDomBuilder_build, _serializeElement,
      _serializeAttributes, _serializeRef, _serializeChildren,
      hskip, hifr, hvoid, hlow, hpa,
      List.filterMap, pushHtml, sortAttrs, List.foldr, List.foldl,
      Bool.false_eq_true, if_false, ne_eq, ite_not]
    rw [if_neg hv, if_neg hv]
    apply String.ext
    simp [String.join, String.data_append, insertAttr, attrText, pushHtml]

lemma insertAttr_perm (x : String × String) (l : List (String × String)) :
    List.Perm (insertAttr x l) (x :: l) := by
  induction l with
  | nil => exact List.Perm.refl _
  | cons y ys ih =>
    rw [insertAttr]
    split
    · exact List.Perm.refl _
    · exact (ih.cons y).trans (List.Perm.swap x y ys)

lemma sortAttrs_perm (l : List (String × String)) : List.Perm (sortAttrs l) l := by
  induction l with
  | nil => exact List.Perm.refl _
  | cons x xs ih => exact (insertAttr_perm x (sortAttrs xs)).trans (ih.cons x)

lemma insertAttr_sorted (x : String × String) (l : List (String × String))
    (h : l.Pairwise (fun a b => attrOrder a.1 ≤ attrOrder b.1)) :
    (insertAttr x l).Pairwise (fun a b => attrOrder a.1 ≤ attrOrder b.1) := by
  induction l with
  | nil => simp [insertAttr]
  | cons y ys ih =>
    obtain ⟨hy, hys⟩ := List.pairwise_cons.1 h
    by_cases hle : attrOrder x.1 ≤ attrOrder y.1
    · rw [insertAttr, if_pos hle]
      refine List.pairwise_cons.2 ⟨?_, h⟩
      intro b hb
      rcases List.mem_cons.1 hb with rfl | hb
      · exact hle
      · exact le_trans hle (hy b hb)
    · rw [insertAttr, if_neg hle]
      refine List.pairwise_cons.2 ⟨?_, ih hys⟩
      intro b hb
      rcases List.mem_cons.1 ((insertAttr_perm x ys).mem_iff.1 hb) with rfl | hb
      · exact Nat.le_of_not_le hle
      · exact hy b hb

lemma sortAttrs_sorted (l : List (String × String)) :
    (sortAttrs l).Pairwise (fun a b => attrOrder a.1 ≤ attrOrder b.1) := by
  induction l with
  | nil => simp [sortAttrs]
  | cons x xs ih => exact insertAttr_sorted x (sortAttrs xs) ih

lemma foldl_pushHtml_attrText (l : List (String × String)) (st : BuilderState) :
    l.foldl (fun s a => pushHtml s (attrText a)) st =
      { st with _html := st._html ++ l.map attrText } := by
  induction l generalizing st with
  | nil => simp
  | cons a as ih =>
    rw [List.foldl_cons, ih]
    simp [pushHtml, List.append_assoc]

lemma _serializeAttributes_eq (st : BuilderState) (tag : String)
    (attrs : List (String × String)) :
    _serializeAttributes st tag attrs =
      { st with _html := st._html ++ (emittedAttrs tag attrs).map attrText } := by
  unfold _serializeAttributes emittedAttrs
  exact foldl_pushHtml_attrText _ _

lemma html_push (st : BuilderState) (s : String) :
    (pushHtml st s)._html = st._html ++ [s] := rfl

lemma _serializeElement_skip (tag : String) (attrs : List (String × String))
    (ariaRef : Option String) (children : List DomNode)
    (shadow : Option (List DomNode)) (st : BuilderState)
    (hskip : _shouldSkipElement tag attrs = true) :
    _serializeElement st (.element tag attrs ariaRef children shadow) = st := by
  cases ariaRef with
  | some ref => rw [_serializeElement.eq_3, if_pos hskip]
  | none => rw [_serializeElement.eq_4, if_pos hskip]

lemma openTag_eq_some (st : BuilderState) (tag : String)
    (attrs : List (String × String)) (ref : String) :
    pushHtml (_serializeRef (_serializeAttributes (pushHtml
        (if (tag == "IFRAME") = true then
          { _html := st._html, _iframeRefs := st._iframeRefs ++ [ref] } else st)
        ("<" ++ strToLower tag)) tag attrs) (some ref)) ">" =
      { _html := st._html ++ ["<" ++ strToLower tag] ++
          (emittedAttrs tag attrs).map attrText ++ refPiece (some ref) ++ [">"],
        _iframeRefs := st._iframeRefs ++ iframeDelta tag (some ref) } := by
  cases hif : (tag == "IFRAME") <;>
    simp [iframeDelta, hif, _serializeAttributes_eq, _serializeRef, refPiece, pushHtml,
      List.append_assoc]

lemma openTag_eq_none (st : BuilderState) (tag : String)
    (attrs : List (String × String)) :
    pushHtml (_serializeRef (_serializeAttributes (pushHtml
        (if (tag == "IFRAME") = true then st else st)
        ("<" ++ strToLower tag)) tag attrs) none) ">" =
      { _html := st._html ++ ["<" ++ strToLower tag] ++
          (emittedAttrs tag attrs).map attrText ++ refPiece none ++ [">"],
        _iframeRefs := st._iframeRefs } := by
  simp [_serializeAttributes_eq, _serializeRef, refPiece, pushHtml, List.append_assoc]

lemma tail_html_append (tag : String) (children : List DomNode)
    (shadow : Option (List DomNode))
    (IHc : ∀ st, ∃ δ, (_serializeChildren st children)._html = st._html ++ δ)
    (IHs : ∀ st, ∃ δ, (_serializeChildren st (shadow.getD []))._html = st._html ++ δ) :
    ∀ R : BuilderState, ∃ δ,
      (pushHtml
        (match shadow with
         | some shadowChildren =>
           pushHtml (_serializeChildren (pushHtml (_serializeChildren R children)
             "<!-- shadow-root -->") shadowChildren) "<!-- /shadow-root -->"
         | none => _serializeChildren R children)
        ("</" ++ strToLower tag ++ ">"))._html = R._html ++ δ := by
  cases shadow with
  | none =>
    intro R
    obtain ⟨δc, hc⟩ := IHc R
    refine ⟨δc ++ ["</" ++ strToLower tag ++ ">"], ?_⟩
    rw [html_push, hc]
    simp [List.append_assoc]
  | some sc =>
    intro R
    have IHs2 : ∀ st, ∃ δ, (_serializeChildren st sc)._html = st._html ++ δ := IHs
    obtain ⟨δc, hc⟩ := IHc R
    obtain ⟨δs, hs⟩ := IHs2 (pushHtml (_serializeChildren R children) "<!-- shadow-root -->")
    refine ⟨δc ++ ["<!-- shadow-root -->"] ++ δs ++
      ["<!-- /shadow-root -->", "</" ++ strToLower tag ++ ">"], ?_⟩
    simp only [html_push]
    rw [hs]
    simp only [html_push]
    rw [hc]
    simp [List.append_assoc]

lemma element_html_append_aux (tag : String) (attrs : List (String × String))
    (ariaRef : Option String) (children : List DomNode) (shadow : Option (List DomNode))
    (IHc : ∀ st, ∃ δ, (_serializeChildren st children)._html = st._html ++ δ)
    (IHs : ∀ st, ∃ δ, (_serializeChildren st (shadow.getD []))._html = st._html ++ δ) :
    ∀ st, ∃ δ,
      (_serializeElement st (.element tag attrs ariaRef children shadow))._html
        = st._html ++ δ := by
  intro st
  by_cases hskip : _shouldSkipElement tag attrs = true
  · exact ⟨[], by
      rw [_serializeElement_skip tag attrs ariaRef children shadow st hskip,
        List.append_nil]⟩
  · cases ariaRef with
    | some ref =>
      rw [_serializeElement.eq_3]
      simp only [if_neg hskip]
      rw [openTag_eq_some]
      by_cases hvoid : VOID_TAGS.contains tag = true
      · rw [if_pos hvoid]
        refine ⟨["<" ++ strToLower tag] ++ (emittedAttrs tag attrs).map attrText ++
            refPiece (some ref) ++ [">"], ?_⟩
        simp [List.append_assoc]
      · rw [if_neg hvoid]
        obtain ⟨δt, ht⟩ := tail_html_append tag children shadow IHc IHs
          { _html := st._html ++ ["<" ++ strToLower tag] ++
              (emittedAttrs tag attrs).map attrText ++ refPiece (some ref) ++ [">"],
            _iframeRefs := st._iframeRefs ++ iframeDelta tag (some ref) }
        rw [ht]
        refine ⟨["<" ++ strToLower tag] ++ (emittedAttrs tag attrs).map attrText ++
            refPiece (some ref) ++ [">"] ++ δt, ?_⟩
        simp [List.append_assoc]
    | none =>
      rw [_serializeElement.eq_4]
      simp only [if_neg hskip]
      rw [openTag_eq_none]
      by_cases hvoid : VOID_TAGS.contains tag = true
      · rw [if_pos hvoid]
        refine ⟨["<" ++ strToLower tag] ++ (emittedAttrs tag attrs).map attrText ++
            refPiece none ++ [">"], ?_⟩
        simp [refPiece, List.append_assoc]
      · rw [if_neg hvoid]
        obtain ⟨δt, ht⟩ := tail_html_append tag children shadow IHc IHs
          { _html := st._html ++ ["<" ++ strToLower tag] ++
              (emittedAttrs tag attrs).map attrText ++ refPiece none ++ [">"],
            _iframeRefs := st._iframeRefs }
        rw [ht]
        refine ⟨["<" ++ strToLower tag] ++ (emittedAttrs tag attrs).map attrText ++
            refPiece none ++ [">"] ++ δt, ?_⟩
        simp [refPiece, List.append_assoc]

mutual

theorem _serializeElement_html_append (n : DomNode) :
    ∀ st, ∃ δ, (_serializeElement st n)._html = st._html ++ δ := by
  cases n with
  | text s =>
    intro st
    exact ⟨[], by rw [_serializeElement.eq_1, List.append_nil]⟩
  | comment s =>
    intro st
    exact ⟨[], by rw [_serializeElement.eq_2, List.append_nil]⟩
  | element tag attrs ariaRef children shadow =>
    cases shadow with
    | none =>
      exact element_html_append_aux tag attrs ariaRef children none
        (_serializeChildren_html_append children)
        (fun st => ⟨[], by
          rw [show ((none : Option (List DomNode)).getD []) = [] from rfl,
            _serializeChildren.eq_1, List.append_nil]⟩)
    | some sc =>
      exact element_html_append_aux tag attrs ariaRef children (some sc)
        (_serializeChildren_html_append children)
        (_serializeChildren_html_append sc)

theorem _serializeChildren_html_append (ns : List DomNode) :
    ∀ st, ∃ δ, (_serializeChildren st ns)._html = st._html ++ δ := by
  cases ns with
  | nil =>
    intro st
    exact ⟨[], by rw [_serializeChildren.eq_1, List.append_nil]⟩
  | cons child rest =>
    intro st
    have IHr := _serializeChildren_html_append rest
    cases child with
    | text s =>
      by_cases ht : trimNonempty s = true
      · obtain ⟨δr, hr⟩ := IHr (pushHtml st (escapeHtml s))
        refine ⟨[escapeHtml s] ++ δr, ?_⟩
        calc (_serializeChildren st (.text s :: rest))._html
            = (_serializeChildren
                (if trimNonempty s = true then pushHtml st (escapeHtml s) else st)
                rest)._html := rfl
          _ = (_serializeChildren (pushHtml st (escapeHtml s)) rest)._html := by
                rw [if_pos ht]
          _ = (pushHtml st (escapeHtml s))._html ++ δr := hr
          _ = st._html ++ ([escapeHtml s] ++ δr) := by
                rw [html_push]; simp [List.append_assoc]
      · obtain ⟨δr, hr⟩ := IHr st
        refine ⟨δr, ?_⟩
        calc (_serializeChildren st (.text s :: rest))._html
            = (_serializeChildren
                (if trimNonempty s = true then pushHtml st (escapeHtml s) else st)
                rest)._html := rfl
          _ = (_serializeChildren st rest)._html := by rw [if_neg ht]
          _ = st._html ++ δr := hr
    | comment s =>
      obtain ⟨δr, hr⟩ := IHr st
      exact ⟨δr, hr⟩
    | element tag attrs ariaRef children shadow =>
      have IHe := _serializeElement_html_append (.element tag attrs ariaRef children shadow)
      obtain ⟨δe, he⟩ := IHe st
      obtain ⟨δr, hr⟩ :=
        IHr (_serializeElement st (.element tag attrs ariaRef children shadow))
      refine ⟨δe ++ δr, ?_⟩
      calc (_serializeChildren st (.element tag attrs ariaRef children shadow :: rest))._html
          = (_serializeChildren
              (_serializeElement st (.element tag attrs ariaRef children shadow)) rest)._html := rfl
        _ = (_serializeElement st (.element tag attrs ariaRef children shadow))._html ++ δr := hr
        _ = st._html ++ δe ++ δr := by rw [he]
        _ = st._html ++ (δe ++ δr) := by rw [List.append_assoc]

end

/-- C5 (counterexample): the claim's ordering places `class` before
"everything else", but the source table gives unlisted attributes rank 30
and `class` rank 40: for `<div class="a" foo="b">` the serializer emits
`foo` before `class`, so the emitted name sequence violates the claimed
rank order. -/
theorem attr_canonical_order_cex :
    (AIDomBuilderInjection (.element "DIV" [("class", "a"), ("foo", "b")] none [] none)).html
      = "<div foo=\"b\" class=\"a\"></div>" ∧
    emittedAttrNames "DIV" [("class", "a"), ("foo", "b")] = ["foo", "class"] ∧
    specClaimedAttrRank "class" < specClaimedAttrRank "foo" ∧
    ¬ (emittedAttrNames "DIV" [("class", "a"), ("foo", "b")]).Pairwise
        (fun a b => specClaimedAttrRank a ≤ specClaimedAttrRank b) := by
  refine ⟨by decide, by decide, by decide, by decide⟩

/-- C5 (amended): for every retained element, the serializer emits its
surviving attributes in non-decreasing source-canonical rank — identity-ish
(`id`,`type`,`name`,`role`: 0-3), `aria-*` (5), reference/linking
(`href`,`src`,`action`,`method`,`for`: 10-14), value-ish
(`value`,`placeholder`,`required`,`disabled`,`checked`,`selected`,
`multiple`,`readonly`: 20-27), everything unlisted (30), then
`class`,`alt`,`title`,`target`,`rel` (40-44), ties keeping source order —
and the stamped `ref` is always emitted last, directly before `>`. -/
theorem attr_canonical_order (tag : String) (attrs : List (String × String))
    (ariaRef : Option String) (children : List DomNode) (shadow : Option (List DomNode))
    (hskip : _shouldSkipElement tag attrs = false) :
    (emittedAttrNames tag attrs).Pairwise (fun a b => attrOrder a ≤ attrOrder b) ∧
    ∀ st, ∃ rest, (_serializeElement st
        (.element tag attrs ariaRef children shadow))._html =
      st._html ++ ["<" ++ strToLower tag] ++ (emittedAttrs tag attrs).map attrText ++
        refPiece ariaRef ++ [">"] ++ rest := by
  have hskip2 : ¬ (_shouldSkipElement tag attrs = true) := by simp [hskip]
  constructor
  · unfold emittedAttrNames
    exact List.pairwise_map.2 (sortAttrs_sorted _)
  · intro st
    cases ariaRef with
    | some ref =>
      rw [_serializeElement.eq_3]
      simp only [if_neg hskip2]
      rw [openTag_eq_some]
      by_cases hvoid : VOID_TAGS.contains tag = true
      · rw [if_pos hvoid]
        exact ⟨[], by simp [refPiece, List.append_assoc]⟩
      · rw [if_neg hvoid]
        obtain ⟨δt, ht⟩ := tail_html_append tag children shadow
          (_serializeChildren_html_append children)
          (_serializeChildren_html_append (shadow.getD []))
          { _html := st._html ++ ["<" ++ strToLower tag] ++
              (emittedAttrs tag attrs).map attrText ++ refPiece (some ref) ++ [">"],
            _iframeRefs := st._iframeRefs ++ iframeDelta tag (some ref) }
        rw [ht]
        exact ⟨δt, by simp [refPiece, List.append_assoc]⟩
    | none =>
      rw [_serializeElement.eq_4]
      simp only [if_neg hskip2]
      rw [openTag_eq_none]
      by_cases hvoid : VOID_TAGS.contains tag = true
      · rw [if_pos hvoid]
        exact ⟨[], by simp [refPiece, List.append_assoc]⟩
      · rw [if_neg hvoid]
        obtain ⟨δt, ht⟩ := tail_html_append tag children shadow
          (_serializeChildren_html_append children)
          (_serializeChildren_html_append (shadow.getD []))
          { _html := st._html ++ ["<" ++ strToLower tag] ++
              (emittedAttrs tag attrs).map attrText ++ refPiece none ++ [">"],
            _iframeRefs := st._iframeRefs }
        rw [ht]
        exact ⟨δt, by simp [refPiece, List.append_assoc]⟩

/-- Witness for `attr_canonical_order` at a concrete button element. -/
theorem attr_canonical_order_witness :
    _shouldSkipElement "BUTTON" [("class", "menu"), ("foo", "b"), ("aria-label", "x"), ("id", "a")] = false ∧
    ((emittedAttrNames "BUTTON" [("class", "menu"), ("foo", "b"), ("aria-label", "x"), ("id", "a")]).Pairwise
        (fun a b => attrOrder a ≤ attrOrder b) ∧
      ∀ st, ∃ rest, (_serializeElement st
          (.element "BUTTON" [("class", "menu"), ("foo", "b"), ("aria-label", "x"), ("id", "a")]
            (some "e9") [.text "Hi"] none))._html =
        st._html ++ ["<" ++ strToLower "BUTTON"] ++
          (emittedAttrs "BUTTON" [("class", "menu"), ("foo", "b"), ("aria-label", "x"), ("id", "a")]).map attrText ++
          refPiece (some "e9") ++ [">"] ++ rest) :=
  ⟨by decide,
    attr_canonical_order "BUTTON" [("class", "menu"), ("foo", "b"), ("aria-label", "x"), ("id", "a")]
      (some "e9") [.text "Hi"] none (by decide)⟩

lemma find?_eq_head?_filter (p : (String × String) → Bool) (l : List (String × String)) :
    l.find? p = (l.filter p).head? := by
  induction l with
  | nil => rfl
  | cons a as ih =>
    by_cases h : p a = true
    · rw [List.find?_cons_of_pos _ h, List.filter_cons, if_pos h, List.head?_cons]
    · rw [List.find?_cons_of_neg _ (by simp [h]), List.filter_cons, if_neg h, ih]

/-- Every attribute named `rel` survives the filter unchanged: `rel` is not
an event handler, not `style`, not `data-*`, not `ref`, not an SVG-noise
attribute and not `class`. -/
lemma processAttr_rel (tag : String) (a : String × String) (hname : a.1 = "rel") :
    processAttr tag a = some a := by
  unfold processAttr
  rw [hname]
  rfl

/-- Rank-distinctness of the retained attributes bounds the number of `rel`
attributes in the source list: every `rel` is retained with rank 44, so two
of them would tie. -/
lemma filter_rel_le_one (tag : String) (attrs : List (String × String))
    (hdist : (attrs.filterMap (processAttr tag)).Pairwise
      (fun a b => attrOrder a.1 ≠ attrOrder b.1)) :
    (attrs.filter (fun a => a.1 == "rel")).length ≤ 1 := by
  induction attrs with
  | nil => simp
  | cons a as ih =>
    rw [List.filter_cons]
    by_cases h : (a.1 == "rel") = true
    · rw [if_pos h]
      have hname : a.1 = "rel" := eq_of_beq h
      have hpa := processAttr_rel tag a hname
      rw [List.filterMap_cons, hpa] at hdist
      obtain ⟨ha, has⟩ := List.pairwise_cons.1 hdist
      have hnil : as.filter (fun b => b.1 == "rel") = [] := by
        rw [List.filter_eq_nil_iff]
        intro b hb hbn
        have hbname : b.1 = "rel" := eq_of_beq hbn
        have hpb := processAttr_rel tag b hbname
        have hbmem : b ∈ as.filterMap (processAttr tag) :=
          List.mem_filterMap.2 ⟨b, hb, hpb⟩
        have hne := ha b hbmem
        rw [hname, hbname] at hne
        exact hne rfl
      simp [hnil]
    · rw [if_neg h]
      have hsub : List.Sublist (as.filterMap (processAttr tag))
          ((a :: as).filterMap (processAttr tag)) := by
        rw [List.filterMap_cons]
        cases processAttr tag a
        · exact List.Sublist.refl _
        · exact List.sublist_cons_self _ _
      exact ih (hdist.sublist hsub)

lemma getAttribute_perm (attrs attrs' : List (String × String)) (name : String)
    (hperm : List.Perm attrs attrs')
    (huniq : (attrs.filter (fun a => a.1 == name)).length ≤ 1) :
    getAttribute attrs name = getAttribute attrs' name := by
  unfold getAttribute
  rw [find?_eq_head?_filter, find?_eq_head?_filter]
  have hpf : List.Perm (attrs.filter (fun a => a.1 == name))
      (attrs'.filter (fun a => a.1 == name)) := hperm.filter _
  cases h1 : attrs.filter (fun a => a.1 == name) with
  | nil =>
    rw [h1] at hpf
    rw [← hpf.nil_eq]
  | cons x xs =>
    rw [h1] at hpf huniq
    cases xs with
    | nil => rw [← List.singleton_perm.1 hpf]
    | cons y ys => simp at huniq

lemma sorted_perm_eq (l1 l2 : List (String × String))
    (hperm : List.Perm l1 l2)
    (h1 : l1.Pairwise (fun a b => attrOrder a.1 ≤ attrOrder b.1))
    (h2 : l2.Pairwise (fun a b => attrOrder a.1 ≤ attrOrder b.1))
    (hd : l1.Pairwise (fun a b => attrOrder a.1 ≠ attrOrder b.1)) :
    l1 = l2 := by
  induction l1 generalizing l2 with
  | nil => exact hperm.symm.eq_nil.symm
  | cons a t1 ih =>
    cases l2 with
    | nil => exact absurd hperm.eq_nil (by simp)
    | cons b t2 =>
      have hab : a = b := by
        by_contra hne
        have hbmem : b ∈ a :: t1 := hperm.mem_iff.2 (List.mem_cons_self b t2)
        have hamem : a ∈ b :: t2 := hperm.mem_iff.1 (List.mem_cons_self a t1)
        rcases List.mem_cons.1 hbmem with h | hb1
        · exact hne h.symm
        rcases List.mem_cons.1 hamem with h | ha2
        · exact hne h
        have hle1 := (List.pairwise_cons.1 h1).1 b hb1
        have hle2 := (List.pairwise_cons.1 h2).1 a ha2
        have hneq := (List.pairwise_cons.1 hd).1 b hb1
        omega
      subst hab
      have ht : List.Perm t1 t2 := hperm.cons_inv
      rw [ih t2 ht (List.pairwise_cons.1 h1).2 (List.pairwise_cons.1 h2).2
        (List.pairwise_cons.1 hd).2]

/-- C2 (counterexample): two `aria-*` attributes share canonical rank 5, and
the sort is stable, so swapping them in the source changes the canonical
output: the two serializations of the same attribute multiset differ. -/
theorem attr_order_instability_cex :
    List.Perm [(("aria-label" : String), ("x" : String)), ("aria-hidden", "y")]
      [("aria-hidden", "y"), ("aria-label", "x")] ∧
    (AIDomBuilderInjection
        (.element "DIV" [("aria-label", "x"), ("aria-hidden", "y")] none [] none)).html
      ≠ (AIDomBuilderInjection
        (.element "DIV" [("aria-hidden", "y"), ("aria-label", "x")] none [] none)).html := by
  constructor
  · decide
  · decide

/-- C2 (amended): permuting an element's source attributes never changes the
canonical output provided the retained attributes (the survivors of the
attribute filter) occupy pairwise-distinct canonical ranks; retained
attributes sharing a rank (two `aria-*` attributes, or two unlisted
attributes) keep their incidental source order and so may reorder the
output. -/
theorem attr_permutation_stability (tag : String) (attrs attrs' : List (String × String))
    (ariaRef : Option String) (children : List DomNode) (shadow : Option (List DomNode))
    (hperm : List.Perm attrs attrs')
    (hdist : (attrs.filterMap (processAttr tag)).Pairwise
      (fun a b => attrOrder a.1 ≠ attrOrder b.1)) :
    AIDomBuilderInjection (.element tag attrs ariaRef children shadow) =
      AIDomBuilderInjection (.element tag attrs' ariaRef children shadow) := by
  have hd1 : (attrs.filterMap (processAttr tag)).Pairwise
      (fun a b => attrOrder a.1 ≠ attrOrder b.1) := hdist
  have hpp := hperm.filterMap (processAttr tag)
  have hsortperm : List.Perm (sortAttrs (attrs.filterMap (processAttr tag)))
      (sortAttrs (attrs'.filterMap (processAttr tag))) :=
    (sortAttrs_perm _).trans (hpp.trans (sortAttrs_perm _).symm)
  have hdsort : (sortAttrs (attrs.filterMap (processAttr tag))).Pairwise
      (fun a b => attrOrder a.1 ≠ attrOrder b.1) :=
    ((sortAttrs_perm (attrs.filterMap (processAttr tag))).pairwise_iff
      (fun h hEq => h hEq.symm)).2 hd1
  have hsort : sortAttrs (attrs.filterMap (processAttr tag))
      = sortAttrs (attrs'.filterMap (processAttr tag)) :=
    sorted_perm_eq _ _ hsortperm (sortAttrs_sorted _) (sortAttrs_sorted _) hdsort
  have hemit : emittedAttrs tag attrs = emittedAttrs tag attrs' := hsort
  have hskipEq : _shouldSkipElement tag attrs = _shouldSkipElement tag attrs' := by
    unfold _shouldSkipElement
    rw [getAttribute_perm attrs attrs' "rel" hperm (filter_rel_le_one tag attrs hdist)]
  suffices h : _serializeElement { _html := [], _iframeRefs := [] }
      (.element tag attrs ariaRef children shadow)
      = _serializeElement { _html := [], _iframeRefs := [] }
      (.element tag attrs' ariaRef children shadow) by
    simp only [AIDomBuilderInjection, AIDomBuilder_build, h]
  by_cases hskip : _shouldSkipElement tag attrs = true
  · rw [_serializeElement_skip _ _ _ _ _ _ hskip,
      _serializeElement_skip _ _ _ _ _ _ (hskipEq ▸ hskip)]
  · have hskip' : ¬ _shouldSkipElement tag attrs' = true := by
      rw [← hskipEq]; exact hskip
    cases ariaRef with
    | some ref =>
      rw [_serializeElement.eq_3, _serializeElement.eq_3]
      simp only [if_neg hskip, if_neg hskip']
      simp only [_serializeAttributes_eq, hemit]
    | none =>
      rw [_serializeElement.eq_4, _serializeElement.eq_4]
      simp only [if_neg hskip, if_neg hskip']
      simp only [_serializeAttributes_eq, hemit]

/-- Witness for `attr_permutation_stability`: swapping `id` and `href` on an
anchor leaves the canonical output unchanged. -/
theorem attr_permutation_stability_witness :
    (List.Perm [(("id" : String), ("a" : String)), ("href", "h")] [("href", "h"), ("id", "a")] ∧
      List.Pairwise (fun a b => attrOrder a.1 ≠ attrOrder b.1)
        ([(("id" : String), ("a" : String)), ("href", "h")].filterMap (processAttr "A"))) ∧
    AIDomBuilderInjection (.element "A" [("id", "a"), ("href", "h")] (some "e2")
        [.text "Go"] none) =
      AIDomBuilderInjection (.element "A" [("href", "h"), ("id", "a")] (some "e2")
        [.text "Go"] none) :=
  ⟨⟨by decide, by decide⟩,
    attr_permutation_stability "A" [("id", "a"), ("href", "h")] [("href", "h"), ("id", "a")]
      (some "e2") [.text "Go"] none (by decide) (by decide)⟩

lemma createPatch_no_hunks (o : String) :
    jsIncludes (createPatch "dom.html" o o) "@@" = false := by
  unfold createPatch
  rw [if_pos rfl]
  decide

lemma createPatch_hunks (o n : String) (h : ¬ o = n) :
    jsIncludes (createPatch "dom.html" o n) "@@" = true := by
  unfold createPatch
  rw [if_neg h]
  decide

lemma ensureStateDir_available (st : DomState) (env : WorkspaceEnv)
    (henv : envAvailable env = true) :
    ∃ d, DomState._ensureStateDir st env =
      ({ _previousDom := st._previousDom, _diffCounter := st._diffCounter,
         _stateDir := some d }, some d) := by
  rcases st with ⟨p, c, sd⟩
  unfold envAvailable at henv
  rw [Bool.or_eq_true] at henv
  cases sd with
  | some d => exact ⟨d, by simp [DomState._ensureStateDir]⟩
  | none =>
    by_cases hm : (truthy env.instanceId && truthy env.muxWorkspace) = true
    · exact ⟨pathJoin (pathJoin (pathJoin (env.muxWorkspace.getD "") ".playwright-mcp")
        "browser-state") (env.instanceId.getD ""), by simp [DomState._ensureStateDir, hm]⟩
    · have hr : env.hasExplicitRoots = true := by
        rcases henv with h | h
        · exact absurd h hm
        · exact h
      exact ⟨pathJoin (pathJoin env.firstRootPath ".playwright-mcp") "browser-state",
        by simp [DomState._ensureStateDir, hm, hr]⟩

lemma update_success_cases (pretty : String → String) (st : DomState)
    (env : WorkspaceEnv) (raw : String) (tn : String) (ta : ToolArgs)
    (henv : envAvailable env = true) :
    ∃ d,
      ((∃ prev, st._previousDom = some prev ∧ pretty raw ≠ prev) ∧
        DomState.update pretty st env (some raw) tn ta =
          ({ _previousDom := some (pretty raw), _diffCounter := st._diffCounter + 1,
             _stateDir := some d },
           some { domPath := pathJoin d "dom.html",
                  ariaPath := pathJoin d "accessibility-tree.yaml",
                  diffPath := some (pathJoin (pathJoin d "diffs")
                    (formatDiffName (st._diffCounter + 1) tn ta)),
                  diff := some (createPatch "dom.html" (st._previousDom.getD "")
                    (pretty raw)) })) ∨
      ((¬ ∃ prev, st._previousDom = some prev ∧ pretty raw ≠ prev) ∧
        DomState.update pretty st env (some raw) tn ta =
          ({ _previousDom := some (pretty raw), _diffCounter := st._diffCounter,
             _stateDir := some d },
           some { domPath := pathJoin d "dom.html",
                  ariaPath := pathJoin d "accessibility-tree.yaml",
                  diffPath := none, diff := none })) := by
  obtain ⟨d, hens⟩ := ensureStateDir_available st env henv
  refine ⟨d, ?_⟩
  cases hprev : st._previousDom with
  | none =>
    right
    constructor
    · rintro ⟨prev, hp, _⟩
      exact Option.noConfusion hp
    · unfold DomState.update
      rw [hens]
      simp [hprev]
  | some prev =>
    by_cases hne : prev = pretty raw
    · right
      constructor
      · rintro ⟨prev2, hp2, hne2⟩
        rw [Option.some.injEq] at hp2
        subst hp2
        exact hne2 hne.symm
      · unfold DomState.update
        rw [hens]
        have hnh : jsIncludes (createPatch "dom.html" prev (pretty raw)) "@@" = false := by
          rw [← hne]
          exact createPatch_no_hunks prev
        simp [hprev, hnh]
    · left
      constructor
      · exact ⟨prev, rfl, fun h => hne h.symm⟩
      · unfold DomState.update
        rw [hens]
        simp [hprev, createPatch_hunks prev (pretty raw) hne]

lemma updateTrace_entries (pretty : String → String) (env : WorkspaceEnv)
    (henv : envAvailable env = true) :
    ∀ (ins : List UpdateInput) (st : DomState),
      (∀ i ∈ ins, i.extraction.isSome) →
      ∀ e ∈ updateTrace pretty env st ins,
        ∃ r, e.output = some r ∧
          (r.diffPath.isSome = true ↔ ∃ prev raw, e.before._previousDom = some prev ∧
            e.input.extraction = some raw ∧ pretty raw ≠ prev) ∧
          (∀ p, r.diffPath = some p →
            e.after._diffCounter = e.before._diffCounter + 1 ∧
            ∃ d, e.after._stateDir = some d ∧
              p = pathJoin (pathJoin d "diffs")
                (formatDiffName e.after._diffCounter e.input.toolName e.input.toolArgs)) ∧
          (r.diffPath = none → e.after._diffCounter = e.before._diffCounter) := by
  intro ins
  induction ins with
  | nil =>
    intro st hsucc e he
    simp [updateTrace] at he
  | cons i is ih =>
    intro st hsucc e he
    have hx : ∃ raw, i.extraction = some raw := by
      have := hsucc i (List.mem_cons_self i is)
      cases hi : i.extraction with
      | none => rw [hi] at this; exact absurd this (by simp)
      | some raw => exact ⟨raw, rfl⟩
    obtain ⟨raw, hraw⟩ := hx
    rw [updateTrace] at he
    rcases List.mem_cons.1 he with rfl | htail
    · obtain ⟨d, hcase⟩ := update_success_cases pretty st env raw i.toolName i.toolArgs henv
      rcases hcase with ⟨hdiff, hequ⟩ | ⟨hnodiff, hequ⟩
      · refine ⟨{ domPath := pathJoin d "dom.html",
                  ariaPath := pathJoin d "accessibility-tree.yaml",
                  diffPath := some (pathJoin (pathJoin d "diffs")
                    (formatDiffName (st._diffCounter + 1) i.toolName i.toolArgs)),
                  diff := some (createPatch "dom.html" (st._previousDom.getD "")
                    (pretty raw)) }, ?_, ?_, ?_, ?_⟩
        · show (DomState.update pretty st env i.extraction i.toolName i.toolArgs).2 = _
          rw [hraw, hequ]
        · constructor
          · intro _
            obtain ⟨prev, hp, hne⟩ := hdiff
            exact ⟨prev, raw, hp, hraw, hne⟩
          · intro _
            rfl
        · intro p hp
          have hp2 : pathJoin (pathJoin d "diffs")
              (formatDiffName (st._diffCounter + 1) i.toolName i.toolArgs) = p := by
            injection hp
          subst hp2
          have hafter : (DomState.update pretty st env i.extraction i.toolName
              i.toolArgs).1 = { _previousDom := some (pretty raw),
                                _diffCounter := st._diffCounter + 1,
                                _stateDir := some d } := by
            rw [hraw, hequ]
          refine ⟨?_, d, ?_, ?_⟩
          · show (DomState.update pretty st env i.extraction i.toolName
                i.toolArgs).1._diffCounter = st._diffCounter + 1
            rw [hafter]
          · show (DomState.update pretty st env i.extraction i.toolName
                i.toolArgs).1._stateDir = some d
            rw [hafter]
          · show _ = pathJoin (pathJoin d "diffs")
                (formatDiffName (DomState.update pretty st env i.extraction i.toolName
                  i.toolArgs).1._diffCounter i.toolName i.toolArgs)
            rw [hafter]
        · intro hnone
          exact absurd hnone (by simp)
      · refine ⟨{ domPath := pathJoin d "dom.html",
                  ariaPath := pathJoin d "accessibility-tree.yaml",
                  diffPath := none, diff := none }, ?_, ?_, ?_, ?_⟩
        · show (DomState.update pretty st env i.extraction i.toolName i.toolArgs).2 = _
          rw [hraw, hequ]
        · constructor
          · intro hsome
            exact absurd hsome (by simp)
          · rintro ⟨prev, raw2, hp, hraw2, hne⟩
            have hr2 : some raw = some raw2 := hraw.symm.trans hraw2
            have : raw = raw2 := by injection hr2
            subst this
            exact absurd ⟨prev, hp, hne⟩ hnodiff
        · intro p hp
          exact absurd hp (by simp)
        · intro _
          show (DomState.update pretty st env i.extraction i.toolName
              i.toolArgs).1._diffCounter = st._diffCounter
          rw [hraw, hequ]
    · exact ih _ (fun i2 hi2 => hsucc i2 (List.mem_cons_of_mem i hi2)) e htail

lemma updateTrace_counter (pretty : String → String) (env : WorkspaceEnv)
    (henv : envAvailable env = true) :
    ∀ (ins : List UpdateInput) (st : DomState),
      (∀ i ∈ ins, i.extraction.isSome) →
      ((updateTrace pretty env st ins).getLast?).elim st._diffCounter
          (fun e => e.after._diffCounter)
        = st._diffCounter + ((updateTrace pretty env st ins).filter wroteDiff).length := by
  intro ins
  induction ins with
  | nil =>
    intro st hsucc
    simp [updateTrace]
  | cons i is ih =>
    intro st hsucc
    have hx : ∃ raw, i.extraction = some raw := by
      have := hsucc i (List.mem_cons_self i is)
      cases hi : i.extraction with
      | none => rw [hi] at this; exact absurd this (by simp)
      | some raw => exact ⟨raw, rfl⟩
    obtain ⟨raw, hraw⟩ := hx
    obtain ⟨d, hcase⟩ := update_success_cases pretty st env raw i.toolName i.toolArgs henv
    have ihx := ih (DomState.update pretty st env i.extraction i.toolName i.toolArgs).1
      (fun i2 hi2 => hsucc i2 (List.mem_cons_of_mem i hi2))
    rw [updateTrace]
    have hcount : (DomState.update pretty st env i.extraction i.toolName
        i.toolArgs).1._diffCounter
        = st._diffCounter + (if wroteDiff (⟨st, i, (DomState.update pretty st env i.extraction i.toolName i.toolArgs).1,
            (DomState.update pretty st env i.extraction i.toolName i.toolArgs).2⟩ : TraceEntry)
          then 1 else 0) := by
      rcases hcase with ⟨hdiff, hequ⟩ | ⟨hnodiff, hequ⟩
      · have hwrote : wroteDiff (⟨st, i, (DomState.update pretty st env i.extraction i.toolName i.toolArgs).1,
            (DomState.update pretty st env i.extraction i.toolName i.toolArgs).2⟩ : TraceEntry)
            = true := by
          unfold wroteDiff
          rw [show (DomState.update pretty st env i.extraction i.toolName i.toolArgs).2
              = (DomState.update pretty st env (some raw) i.toolName i.toolArgs).2 by
            rw [hraw], hequ]
          simp
        rw [hwrote, if_pos rfl, show (DomState.update pretty st env i.extraction i.toolName
            i.toolArgs).1 = (DomState.update pretty st env (some raw) i.toolName
            i.toolArgs).1 by rw [hraw], hequ]
      · have hwrote : wroteDiff (⟨st, i, (DomState.update pretty st env i.extraction i.toolName i.toolArgs).1,
            (DomState.update pretty st env i.extraction i.toolName i.toolArgs).2⟩ : TraceEntry)
            = false := by
          unfold wroteDiff
          rw [show (DomState.update pretty st env i.extraction i.toolName i.toolArgs).2
              = (DomState.update pretty st env (some raw) i.toolName i.toolArgs).2 by
            rw [hraw], hequ]
          simp
        rw [hwrote, show (DomState.update pretty st env i.extraction i.toolName
            i.toolArgs).1 = (DomState.update pretty st env (some raw) i.toolName
            i.toolArgs).1 by rw [hraw], hequ]
        simp
    cases htail : updateTrace pretty env
        (DomState.update pretty st env i.extraction i.toolName i.toolArgs).1 is with
    | nil =>
      rw [htail] at ihx
      simp only [List.getLast?_singleton, Option.elim, List.filter_cons]
      rw [hcount]
      cases hw : wroteDiff (⟨st, i, (DomState.update pretty st env i.extraction i.toolName i.toolArgs).1,
          (DomState.update pretty st env i.extraction i.toolName i.toolArgs).2⟩ : TraceEntry)
      · rw [hw] at hcount
        simp [hcount]
      · rw [hw] at hcount
        simp [hcount]
    | cons t ts =>
      rw [htail] at ihx
      rw [List.getLast?_cons_cons]
      cases hgl : (t :: ts).getLast? with
      | none => simp at hgl
      | some x =>
        rw [hgl] at ihx
        simp only [Option.elim] at ihx ⊢
        rw [List.filter_cons]
        rcases Bool.eq_false_or_eq_true (wroteDiff (⟨st, i,
            (DomState.update pretty st env i.extraction i.toolName i.toolArgs).1,
            (DomState.update pretty st env i.extraction i.toolName i.toolArgs).2⟩ :
            TraceEntry)) with hw | hw
        · rw [hw] at hcount
          rw [hw]
          rw [ihx, hcount]
          simp at hcount ⊢
          try omega
        · rw [hw] at hcount
          rw [hw]
          rw [ihx, hcount]
          simp at hcount ⊢
          try omega

/-- C3: Diff artifact sequencing — over any trace of successful updates on
one session with an addressable workspace: every call returns a result; a
diff file is written exactly when the new formatted text differs from
`previousText` (so a patch with no change hunks writes nothing, and the
first-ever capture, with no previous text, writes none); each written diff
bumps the counter by exactly one and is named with the bumped counter under
`diffs/`; a suppressed diff leaves the counter untouched; and the final
counter equals the number of written diffs — hence the sequence numbers are
exactly 1, 2, ..., k, strictly increasing with no gaps. -/
theorem diff_artifact_sequencing (pretty : String → String) (env : WorkspaceEnv)
    (ins : List UpdateInput)
    (henv : envAvailable env = true)
    (hsucc : ∀ i ∈ ins, i.extraction.isSome) :
    DiffSequencingSpec pretty env ins := by
  unfold DiffSequencingSpec
  refine ⟨?_, ?_, ?_⟩
  · intro e he
    obtain ⟨r, h1, h2, h3, h4⟩ :=
      updateTrace_entries pretty env henv ins DomState.init hsucc e he
    exact ⟨r, h1, h2, h3, h4⟩
  · intro e hhead
    cases ins with
    | nil => simp [updateTrace] at hhead
    | cons i is =>
      rw [updateTrace, List.head?_cons, Option.some.injEq] at hhead
      subst hhead
      obtain ⟨r, h1, h2, h3, h4⟩ :=
        updateTrace_entries pretty env henv (i :: is) DomState.init hsucc _
          (by rw [updateTrace]; exact List.mem_cons_self _ _)
      refine ⟨r, h1, ?_⟩
      have hns : ¬ r.diffPath.isSome = true := by
        intro hs
        obtain ⟨prev, raw, hp, _, _⟩ := h2.1 hs
        exact Option.noConfusion hp
      exact Option.not_isSome_iff_eq_none.1 hns
  · have hc := updateTrace_counter pretty env henv ins DomState.init hsucc
    simpa [DomState.init] using hc

/-- Witness for `diff_artifact_sequencing` on a two-step session under
multiplexer addressing. -/
theorem diff_artifact_sequencing_witness :
    (envAvailable ⟨some "inst-1", some "/ws", false, ""⟩ = true ∧
      (∀ i ∈ [(⟨some "<body>a</body>", "browser_navigate", ⟨none, none⟩⟩ : UpdateInput),
              ⟨some "<body>b</body>", "browser_click", ⟨some "e3", none⟩⟩],
        i.extraction.isSome)) ∧
    DiffSequencingSpec id ⟨some "inst-1", some "/ws", false, ""⟩
      [⟨some "<body>a</body>", "browser_navigate", ⟨none, none⟩⟩,
       ⟨some "<body>b</body>", "browser_click", ⟨some "e3", none⟩⟩] :=
  ⟨⟨by decide, by decide⟩,
    diff_artifact_sequencing id ⟨some "inst-1", some "/ws", false, ""⟩
      [⟨some "<body>a</body>", "browser_navigate", ⟨none, none⟩⟩,
       ⟨some "<body>b</body>", "browser_click", ⟨some "e3", none⟩⟩]
      (by decide) (by decide)⟩
